import Mathlib

/-
Verification development for the announcements resource handler
(src/src/backend/routers/announcements.py).

The handler manipulates Python dicts holding string, datetime, boolean and
null values, stored in an externally owned document store.  We embed dicts
as association lists over a small value type, timestamps as integers, and
each endpoint as a pure function threading the store state explicitly.
An HTTPException raised by the handler becomes the error side of an Except.
-/

set_option autoImplicit false

namespace Announcements

/-- Values that can appear in an announcement or teacher document:
strings, timestamps (datetime modelled as Int), booleans, and Python None. -/
inductive Value where
  | vStr : String → Value
  | vTime : Int → Value
  | vBool : Bool → Value
  | vNull : Value
deriving Repr, DecidableEq

/-- Result of applying Python str() to a value; the handler only ever
applies it to the stored key of a document. -/
def valueStr : Value → String
  | Value.vStr s => s
  | Value.vTime t => toString t
  | Value.vBool b => toString b
  | Value.vNull => "None"

/-- A document: a Python dict with string keys, embedded as an ordered
association list (CPython dicts preserve insertion order). -/
structure Doc where
  entries : List (String × Value)
deriving Repr, DecidableEq

/-- Lookup of a key in a document, as in Python d[k] / Mongo field access. -/
def Doc.get (d : Doc) (k : String) : Option Value :=
  (d.entries.find? (fun p => p.1 == k)).map (fun p => p.2)

/-- Assignment entries: Python d[k] = v overwrites the value at the first
occurrence of k in place, or appends a fresh entry at the end. -/
def setEntries (k : String) (v : Value) : List (String × Value) → List (String × Value)
  | [] => [(k, v)]
  | p :: ps => if p.1 == k then (k, v) :: ps else p :: setEntries k v ps

/-- Python dict assignment d[k] = v. -/
def Doc.set (d : Doc) (k : String) (v : Value) : Doc :=
  ⟨setEntries k v d.entries⟩

/-- Python d.pop(k) restricted to its effect on the dict: the entry for k
is removed. -/
def Doc.eraseKey (d : Doc) (k : String) : Doc :=
  ⟨d.entries.filter (fun p => p.1 != k)⟩

/-- An HTTPException as raised by the handler: a status code and a detail
message. -/
structure HTTPException where
  status_code : Nat
  detail : String
deriving Repr, DecidableEq

/-- The Unauthenticated failure (line 19 of the source). -/
def authenticationRequired : HTTPException := ⟨401, "Authentication required."⟩

/-- The InvalidCaller failure (line 22 of the source). -/
def invalidUser : HTTPException := ⟨401, "Invalid user."⟩

/-- The NoFieldsToUpdate failure (line 70 of the source). -/
def noFieldsToUpdate : HTTPException := ⟨400, "No fields to update."⟩

/-- The NotFound failure (lines 75 and 88 of the source). -/
def announcementNotFound : HTTPException := ⟨404, "Announcement not found."⟩

/-- An unhandled runtime fault surfaced by the framework as a generic
server error; reachable in the source only if the re-read after a matched
update returns nothing. -/
def internalServerError : HTTPException := ⟨500, "Internal Server Error"⟩

/-- Modelled from the spec: the Identity Directory (the database module is
not under src/), a key-value lookup from caller identifier to a user
record, used only to confirm existence. -/
structure TeachersCollection where
  docs : List Doc
deriving Repr, DecidableEq

/-- Modelled from the spec: find_one on the directory returns the first
record whose stored key equals the given key. -/
def TeachersCollection.find_one (c : TeachersCollection) (key : Value) : Option Doc :=
  c.docs.find? (fun d => d.get "_id" == some key)

/-- Modelled from the spec: the Announcement Store (the database module is
not under src/), a key-value document collection whose keys are unique
identifiers assigned at creation.  nextKey drives key generation. -/
structure AnnouncementsCollection where
  docs : List Doc
  nextKey : Nat
deriving Repr, DecidableEq

/-- Modelled from the spec: generation of a fresh store key, exposed to
callers as a string. -/
def keyGen (n : Nat) : String := toString n

/-- Predicate selecting the document stored under a given key. -/
def idIs (key : Value) (d : Doc) : Bool :=
  d.get "_id" == some key

/-- Modelled from the spec: find_one on the store returns the first
document whose stored key equals the given key. -/
def AnnouncementsCollection.find_one (c : AnnouncementsCollection) (key : Value) : Option Doc :=
  c.docs.find? (idIs key)

/-- Modelled from the spec: insert_one appends the document with a fresh
store-assigned key and reports that key (result.inserted_id). -/
def AnnouncementsCollection.insert_one (c : AnnouncementsCollection) (d : Doc) :
    AnnouncementsCollection × String :=
  let newId := keyGen c.nextKey
  (⟨c.docs ++ [d.set "_id" (Value.vStr newId)], c.nextKey + 1⟩, newId)

/-- Mongo $set semantics: each supplied field is written into the document. -/
def setFields (fields : Doc) (d : Doc) : Doc :=
  fields.entries.foldl (fun acc p => acc.set p.1 p.2) d

/-- Applies f to the first document matching p, reporting the matched
count (0 or 1). -/
def updateFirst (p : Doc → Bool) (f : Doc → Doc) : List Doc → List Doc × Nat
  | [] => ([], 0)
  | d :: ds =>
    if p d then (f d :: ds, 1)
    else
      let r := updateFirst p f ds
      (d :: r.1, r.2)

/-- Modelled from the spec: update_one applies a $set of the supplied
fields to the first document stored under the given key and reports
matched_count. -/
def AnnouncementsCollection.update_one (c : AnnouncementsCollection) (key : Value)
    (fields : Doc) : AnnouncementsCollection × Nat :=
  let r := updateFirst (idIs key) (setFields fields) c.docs
  (⟨r.1, c.nextKey⟩, r.2)

/-- Removes the first document matching p, reporting the deleted count
(0 or 1). -/
def deleteFirst (p : Doc → Bool) : List Doc → List Doc × Nat
  | [] => ([], 0)
  | d :: ds =>
    if p d then (ds, 1)
    else
      let r := deleteFirst p ds
      (d :: r.1, r.2)

/-- Modelled from the spec: delete_one removes the document stored under
the given key and reports deleted_count. -/
def AnnouncementsCollection.delete_one (c : AnnouncementsCollection) (key : Value) :
    AnnouncementsCollection × Nat :=
  let r := deleteFirst (idIs key) c.docs
  (⟨r.1, c.nextKey⟩, r.2)

/-- The Mongo filter expression of line 30: expiration gte now.  A
document matches when its expiration field holds a timestamp at or after
now; a missing or non-timestamp field never matches a $gte on a datetime. -/
def expirationGte (now : Int) (d : Doc) : Bool :=
  match d.get "expiration" with
  | some (Value.vTime t) => now ≤ t
  | _ => false

/-- Modelled from the spec: filtered find on the store, keeping the
documents matching the expiration filter in store order. -/
def AnnouncementsCollection.findExpirationGte (c : AnnouncementsCollection) (now : Int) :
    List Doc :=
  c.docs.filter (expirationGte now)

/-- Python falsiness of an optional string: None and the empty string are
falsy (line 18, if not username). -/
def strFalsy : Option String → Bool
  | none => true
  | some s => s == ""

/-- Lines 16-23: the authentication gate.  Fails 401 when the username is
absent or empty, 401 when it does not resolve in the directory, and
otherwise returns the resolved teacher record. -/
def require_auth (tc : TeachersCollection) (username : Option String) :
    Except HTTPException Doc :=
  if strFalsy username then Except.error authenticationRequired
  else
    match tc.find_one (Value.vStr (username.getD "")) with
    | none => Except.error invalidUser
    | some teacher => Except.ok teacher

/-- Lines 32-33: ann["id"] = str(ann.pop("_id")).  The stored key is
removed and re-exposed as the string field id.  (A document with no
stored key would raise in Python; the model exposes the string form of
None there, which store documents never exercise.) -/
def exposeId (ann : Doc) : Doc :=
  (ann.eraseKey "_id").set "id" (Value.vStr (valueStr ((ann.get "_id").getD Value.vNull)))

/-- Lines 25-34: GET, list all non-expired announcements.  No
authentication; never raises. -/
def get_announcements (c : AnnouncementsCollection) (now : Int) :
    Except HTTPException (List Doc) :=
  let announcements := c.findExpirationGte now
  Except.ok (announcements.map exposeId)

/-- The value stored for an optional datetime parameter: Python None when
absent. -/
def optTime : Option Int → Value
  | none => Value.vNull
  | some t => Value.vTime t

/-- Lines 36-51: POST, create an announcement.  Auth gate first; then the
document is inserted and returned with the store-assigned key exposed as
the string field id. -/
def create_announcement (c : AnnouncementsCollection) (tc : TeachersCollection)
    (message : String) (expiration : Int) (start_date : Option Int)
    (username : Option String) :
    Except HTTPException Doc × AnnouncementsCollection :=
  match require_auth tc username with
  | Except.error e => (Except.error e, c)
  | Except.ok _ =>
    let ann : Doc := ⟨[("message", Value.vStr message),
                       ("expiration", Value.vTime expiration),
                       ("start_date", optTime start_date)]⟩
    let r := c.insert_one ann
    (Except.ok (ann.set "id" (Value.vStr r.2)), r.1)

/-- Lines 62-68: the update_fields dict, collecting exactly the supplied
optional parameters in order. -/
def buildUpdateFields (message : Option String) (expiration : Option Int)
    (start_date : Option Int) : Doc :=
  let update_fields : Doc := ⟨[]⟩
  let update_fields := match message with
    | some m => update_fields.set "message" (Value.vStr m)
    | none => update_fields
  let update_fields := match expiration with
    | some t => update_fields.set "expiration" (Value.vTime t)
    | none => update_fields
  match start_date with
  | some t => update_fields.set "start_date" (Value.vTime t)
  | none => update_fields

/-- Lines 53-78: PUT, merge-patch an announcement.  Auth gate first; an
empty patch is a 400; an unmatched key is a 404; otherwise the record is
re-read from the store and returned with its key exposed as id. -/
def update_announcement (c : AnnouncementsCollection) (tc : TeachersCollection)
    (announcement_id : String) (message : Option String) (expiration : Option Int)
    (start_date : Option Int) (username : Option String) :
    Except HTTPException Doc × AnnouncementsCollection :=
  match require_auth tc username with
  | Except.error e => (Except.error e, c)
  | Except.ok _ =>
    let update_fields := buildUpdateFields message expiration start_date
    if update_fields.entries.isEmpty then (Except.error noFieldsToUpdate, c)
    else
      let r := c.update_one (Value.vStr announcement_id) update_fields
      if r.2 == 0 then (Except.error announcementNotFound, r.1)
      else
        match r.1.find_one (Value.vStr announcement_id) with
        | none => (Except.error internalServerError, r.1)
        | some ann => (Except.ok (exposeId ann), r.1)

/-- The success acknowledgment of line 89. -/
def successDoc : Doc := ⟨[("success", Value.vBool true)]⟩

/-- Lines 80-89: DELETE an announcement.  Auth gate first; a missed key is
a 404; otherwise the acknowledgment dict is returned. -/
def delete_announcement (c : AnnouncementsCollection) (tc : TeachersCollection)
    (announcement_id : String) (username : Option String) :
    Except HTTPException Doc × AnnouncementsCollection :=
  match require_auth tc username with
  | Except.error e => (Except.error e, c)
  | Except.ok _ =>
    let r := c.delete_one (Value.vStr announcement_id)
    if r.2 == 0 then (Except.error announcementNotFound, r.1)
    else (Except.ok successDoc, r.1)

/-! Basic lemmas about the dict operations. -/

theorem Doc.get_set (d : Doc) (k k' : String) (v : Value) :
    Doc.get (Doc.set d k v) k' = if k' = k then some v else Doc.get d k' := by
  rcases d with ⟨l⟩
  induction l with
  | nil =>
    by_cases h : k' = k
    · subst h
      simp [Doc.get, Doc.set, setEntries, List.find?]
    · have hb : (k == k') = false := beq_eq_false_iff_ne.mpr (fun e => h e.symm)
      simp [Doc.get, Doc.set, setEntries, List.find?, hb, h]
  | cons a l ih =>
    by_cases ha : a.1 = k
    · have hb3 : (a.1 == k) = true := beq_iff_eq.mpr ha
      by_cases h : k' = k
      · subst h
        simp [Doc.get, Doc.set, setEntries, hb3, List.find?]
      · have hb : (k == k') = false := beq_eq_false_iff_ne.mpr (fun e => h e.symm)
        have hb2 : (a.1 == k') = false := by rw [ha]; exact hb
        simp [Doc.get, Doc.set, setEntries, hb, hb2, hb3, h, List.find?]
    · have hak : (a.1 == k) = false := beq_eq_false_iff_ne.mpr ha
      by_cases hk' : a.1 = k'
      · have hb : (a.1 == k') = true := beq_iff_eq.mpr hk'
        have h : ¬ k' = k := fun e => ha (by rw [hk', e])
        simp [Doc.get, Doc.set, setEntries, hak, hb, h, List.find?]
      · have hb : (a.1 == k') = false := beq_eq_false_iff_ne.mpr hk'
        simp only [Doc.get, Doc.set, setEntries, hak, hb, List.find?,
          Bool.false_eq_true, if_false] at ih ⊢
        exact ih

theorem Doc.get_eraseKey (d : Doc) (k k' : String) :
    Doc.get (Doc.eraseKey d k) k' = if k' = k then none else Doc.get d k' := by
  rcases d with ⟨l⟩
  induction l with
  | nil => by_cases h : k' = k <;> simp [Doc.get, Doc.eraseKey, h]
  | cons a l ih =>
    by_cases ha : a.1 = k
    · have hb : (a.1 != k) = false := by simp [ha]
      by_cases h : k' = k
      · subst h
        simp only [Doc.get, Doc.eraseKey, List.filter_cons, hb,
          Bool.false_eq_true, if_false, if_true] at ih ⊢
        exact ih
      · simp only [Doc.get, Doc.eraseKey, List.filter_cons, hb,
          Bool.false_eq_true, if_false, h] at ih ⊢
        have hb2 : (a.1 == k') = false :=
          beq_eq_false_iff_ne.mpr (fun e => h (by rw [← e, ha]))
        rw [ih]
        simp [List.find?, hb2]
    · have hb : (a.1 != k) = true := by simp [ha]
      by_cases hk' : a.1 = k'
      · have hb2 : (a.1 == k') = true := beq_iff_eq.mpr hk'
        have h : ¬ k' = k := fun e => ha (by rw [hk', e])
        simp [Doc.get, Doc.eraseKey, List.filter_cons, hb, hb2, h, List.find?]
      · have hb2 : (a.1 == k') = false := beq_eq_false_iff_ne.mpr hk'
        simp only [Doc.get, Doc.eraseKey, List.filter_cons, hb, if_true,
          List.find?, hb2] at ih ⊢
        exact ih

theorem setFields_get_of_forbidden (ps : List (String × Value)) (d : Doc) (k : String)
    (h : ∀ q ∈ ps, q.1 ≠ k) :
    Doc.get (setFields ⟨ps⟩ d) k = Doc.get d k := by
  induction ps generalizing d with
  | nil => rfl
  | cons a ps ih =>
    have h1 : a.1 ≠ k := h a (by simp)
    have h2 : ∀ q ∈ ps, q.1 ≠ k := fun q hq => h q (by simp [hq])
    show Doc.get (setFields ⟨ps⟩ (d.set a.1 a.2)) k = Doc.get d k
    rw [ih _ h2, Doc.get_set, if_neg (Ne.symm h1)]

theorem updateFirst_of_find_none (p : Doc → Bool) (f : Doc → Doc) (l : List Doc)
    (h : l.find? p = none) : updateFirst p f l = (l, 0) := by
  induction l with
  | nil => rfl
  | cons a l ih =>
    rw [List.find?_cons] at h
    cases hpa : p a with
    | true => rw [hpa] at h; simp at h
    | false =>
      rw [hpa] at h
      simp [updateFirst, hpa, ih h]

theorem updateFirst_of_find_some (p : Doc → Bool) (f : Doc → Doc) (l : List Doc)
    (d : Doc) (h : l.find? p = some d) :
    (updateFirst p f l).2 = 1 ∧
      (p (f d) = true → (updateFirst p f l).1.find? p = some (f d)) := by
  induction l with
  | nil => simp [List.find?] at h
  | cons a l ih =>
    rw [List.find?_cons] at h
    cases hpa : p a with
    | true =>
      rw [hpa] at h
      simp only [Option.some.injEq] at h
      subst h
      refine ⟨by simp [updateFirst, hpa], fun hfd => ?_⟩
      simp [updateFirst, hpa, List.find?_cons, hfd]
    | false =>
      rw [hpa] at h
      simp only at h
      obtain ⟨ih1, ih2⟩ := ih h
      refine ⟨by simp [updateFirst, hpa, ih1], fun hfd => ?_⟩
      simp [updateFirst, hpa, List.find?_cons, ih2 hfd]

theorem deleteFirst_of_find_none (p : Doc → Bool) (l : List Doc)
    (h : l.find? p = none) : deleteFirst p l = (l, 0) := by
  induction l with
  | nil => rfl
  | cons a l ih =>
    rw [List.find?_cons] at h
    cases hpa : p a with
    | true => rw [hpa] at h; simp at h
    | false =>
      rw [hpa] at h
      simp [deleteFirst, hpa, ih h]

theorem deleteFirst_of_find_some (p : Doc → Bool) (l : List Doc) (d : Doc)
    (h : l.find? p = some d)
    (hu : l.Pairwise (fun a b => (p a && p b) = false)) :
    deleteFirst p l = (l.filter (fun x => !(p x)), 1) := by
  induction l with
  | nil => simp [List.find?] at h
  | cons a l ih =>
    rw [List.find?_cons] at h
    rw [List.pairwise_cons] at hu
    obtain ⟨hua, hul⟩ := hu
    cases hpa : p a with
    | true =>
      have hall : ∀ x ∈ l, p x = false := by
        intro x hx
        have hx2 := hua x hx
        rw [hpa] at hx2
        simpa using hx2
      have hfilter : l.filter (fun x => !(p x)) = l :=
        List.filter_eq_self.mpr (by intro x hx; simp [hall x hx])
      simp [deleteFirst, hpa, List.filter_cons, hfilter]
    | false =>
      rw [hpa] at h
      simp only at h
      simp [deleteFirst, hpa, List.filter_cons, ih h hul]

theorem require_auth_absent (tc : TeachersCollection) :
    require_auth tc none = Except.error authenticationRequired := rfl

theorem require_auth_empty (tc : TeachersCollection) :
    require_auth tc (some "") = Except.error authenticationRequired := by
  simp [require_auth, strFalsy]

theorem require_auth_unknown (tc : TeachersCollection) (u : String)
    (h1 : u ≠ "") (h2 : tc.find_one (Value.vStr u) = none) :
    require_auth tc (some u) = Except.error invalidUser := by
  have hb : (u == "") = false := beq_eq_false_iff_ne.mpr h1
  simp [require_auth, strFalsy, hb, h2]

/-- Spec predicate (sections 3 and 8 of the spec): an announcement is
active at time now iff its expiration is at or after now. -/
def SpecActive (d : Doc) (now : Int) : Prop :=
  ∃ t, Doc.get d "expiration" = some (Value.vTime t) ∧ now ≤ t

theorem expirationGte_iff (now : Int) (d : Doc) :
    expirationGte now d = true ↔ SpecActive d now := by
  cases hg : Doc.get d "expiration" with
  | none => simp [expirationGte, SpecActive, hg]
  | some v =>
    cases v with
    | vTime t => simp [expirationGte, SpecActive, hg]
    | vStr s => simp [expirationGte, SpecActive, hg]
    | vBool b => simp [expirationGte, SpecActive, hg]
    | vNull => simp [expirationGte, SpecActive, hg]

/-! Concrete fixtures used by the witnesses. -/

/-- A directory fixture holding the single teacher t1. -/
def tc0 : TeachersCollection := ⟨[⟨[("_id", Value.vStr "t1")]⟩]⟩

/-- The teacher record of the fixture directory. -/
def td0 : Doc := ⟨[("_id", Value.vStr "t1")]⟩

/-- A stored announcement fixture under key 0, expiring at time 10. -/
def d0 : Doc :=
  ⟨[("_id", Value.vStr "0"), ("message", Value.vStr "hello"),
    ("expiration", Value.vTime 10), ("start_date", Value.vNull)]⟩

/-- A store fixture holding the single announcement d0. -/
def ac0 : AnnouncementsCollection := ⟨[d0], 1⟩

/-- C1: List Active returns exactly the announcements whose expiration is
at or after the current instant, evaluated once at call time: every
stored document that is active per the spec appears (in exposed form) in
the result, every result entry arises from a stored active document, and
the expiration filter never consults the stored start_date field. -/
theorem list_active_spec (c : AnnouncementsCollection) (now : Int) (l : List Doc)
    (hl : get_announcements c now = Except.ok l) :
    (∀ d ∈ c.docs, SpecActive d now → exposeId d ∈ l) ∧
    (∀ a ∈ l, ∃ d ∈ c.docs, SpecActive d now ∧ a = exposeId d) ∧
    (∀ (d : Doc) (v : Value),
      expirationGte now (Doc.set d "start_date" v) = expirationGte now d) := by
  have hl2 : l = (c.docs.filter (expirationGte now)).map exposeId := by
    simpa [get_announcements, AnnouncementsCollection.findExpirationGte] using hl.symm
  subst hl2
  refine ⟨?_, ?_, ?_⟩
  · intro d hd hact
    exact List.mem_map_of_mem _
      (List.mem_filter.mpr ⟨hd, (expirationGte_iff now d).mpr hact⟩)
  · intro a ha
    obtain ⟨d, hd, rfl⟩ := List.mem_map.mp ha
    have hm := List.mem_filter.mp hd
    exact ⟨d, hm.1, (expirationGte_iff now d).mp hm.2, rfl⟩
  · intro d v
    unfold expirationGte
    rw [Doc.get_set, if_neg (by decide)]

/-- Witness for list_active_spec at the fixture store and instant 5. -/
theorem list_active_spec_witness :
    get_announcements ac0 5 = Except.ok [exposeId d0] ∧
    ((∀ d ∈ ac0.docs, SpecActive d 5 → exposeId d ∈ [exposeId d0]) ∧
     (∀ a ∈ [exposeId d0], ∃ d ∈ ac0.docs, SpecActive d 5 ∧ a = exposeId d) ∧
     (∀ (d : Doc) (v : Value),
       expirationGte 5 (Doc.set d "start_date" v) = expirationGte 5 d)) := by
  have h : get_announcements ac0 5 = Except.ok [exposeId d0] := rfl
  exact ⟨h, list_active_spec ac0 5 [exposeId d0] h⟩

/-- C2: each mutating operation called with no caller identifier fails
Unauthenticated, and called with a (nonempty) identifier unknown to the
directory fails InvalidCaller; in both cases the store is returned
unchanged, no write having been attempted; List Active succeeds with no
caller identifier at all. -/
theorem mutating_requires_auth (ac : AnnouncementsCollection) (tc : TeachersCollection)
    (now expn : Int) (aid msg : String) (sd : Option Int)
    (m? : Option String) (e? s? : Option Int) (u : String)
    (h1 : u ≠ "") (h2 : tc.find_one (Value.vStr u) = none) :
    create_announcement ac tc msg expn sd none = (Except.error authenticationRequired, ac) ∧
    update_announcement ac tc aid m? e? s? none = (Except.error authenticationRequired, ac) ∧
    delete_announcement ac tc aid none = (Except.error authenticationRequired, ac) ∧
    create_announcement ac tc msg expn sd (some u) = (Except.error invalidUser, ac) ∧
    update_announcement ac tc aid m? e? s? (some u) = (Except.error invalidUser, ac) ∧
    delete_announcement ac tc aid (some u) = (Except.error invalidUser, ac) ∧
    (∃ l, get_announcements ac now = Except.ok l) := by
  have ha := require_auth_absent tc
  have hu := require_auth_unknown tc u h1 h2
  refine ⟨?_, ?_, ?_, ?_, ?_, ?_, ⟨_, rfl⟩⟩ <;>
    simp [create_announcement, update_announcement, delete_announcement, ha, hu]

/-- Witness for mutating_requires_auth with the unknown caller ghost. -/
theorem mutating_requires_auth_witness :
    "ghost" ≠ "" ∧ tc0.find_one (Value.vStr "ghost") = none ∧
    delete_announcement ac0 tc0 "0" (some "ghost") = (Except.error invalidUser, ac0) ∧
    delete_announcement ac0 tc0 "0" none = (Except.error authenticationRequired, ac0) := by
  have h := mutating_requires_auth ac0 tc0 0 9 "0" "m" none none none none "ghost"
    (by decide) rfl
  exact ⟨by decide, rfl, h.2.2.2.2.2.1, h.2.2.1⟩

theorem buildUpdateFields_keys (m? : Option String) (e? s? : Option Int) :
    ∀ q ∈ (buildUpdateFields m? e? s?).entries,
      q.1 = "message" ∨ q.1 = "expiration" ∨ q.1 = "start_date" := by
  rcases m? with _ | m <;> rcases e? with _ | e <;> rcases s? with _ | s <;>
    simp [buildUpdateFields, Doc.set, setEntries]

theorem setFields_build_id (m? : Option String) (e? s? : Option Int) (d : Doc) :
    Doc.get (setFields (buildUpdateFields m? e? s?) d) "_id" = Doc.get d "_id" := by
  rcases hb : buildUpdateFields m? e? s? with ⟨ps⟩
  apply setFields_get_of_forbidden
  intro q hq
  have hk := buildUpdateFields_keys m? e? s? q (by rw [hb]; exact hq)
  rcases hk with h | h | h <;> simp [h]

theorem buildUpdateFields_nonempty (m? : Option String) (e? s? : Option Int)
    (hsome : m?.isSome = true ∨ e?.isSome = true ∨ s?.isSome = true) :
    (buildUpdateFields m? e? s?).entries.isEmpty = false := by
  rcases m? with _ | m <;> rcases e? with _ | e <;> rcases s? with _ | s <;>
    simp_all [buildUpdateFields, Doc.set, setEntries]

/-- The effect of a patch on a queried field: the supplied value when
present, the prior stored value otherwise. -/
def patchVal (supplied : Option Value) (old : Option Value) : Option Value :=
  match supplied with
  | some v => some v
  | none => old

/-- Conditional string assignment, used to restate the patch as a
composition of at most three assignments. -/
def optSetStr (k : String) (v? : Option String) (d : Doc) : Doc :=
  match v? with
  | some s => d.set k (Value.vStr s)
  | none => d

/-- Conditional timestamp assignment. -/
def optSetTime (k : String) (t? : Option Int) (d : Doc) : Doc :=
  match t? with
  | some t => d.set k (Value.vTime t)
  | none => d

theorem setFields_build (m? : Option String) (e? s? : Option Int) (d : Doc) :
    setFields (buildUpdateFields m? e? s?) d =
      optSetTime "start_date" s?
        (optSetTime "expiration" e? (optSetStr "message" m? d)) := by
  rcases m? with _ | m <;> rcases e? with _ | e <;> rcases s? with _ | s <;> rfl

theorem setFields_build_get (m? : Option String) (e? s? : Option Int) (d : Doc) :
    Doc.get (setFields (buildUpdateFields m? e? s?) d) "message" =
      patchVal (Option.map Value.vStr m?) (Doc.get d "message") ∧
    Doc.get (setFields (buildUpdateFields m? e? s?) d) "expiration" =
      patchVal (Option.map Value.vTime e?) (Doc.get d "expiration") ∧
    Doc.get (setFields (buildUpdateFields m? e? s?) d) "start_date" =
      patchVal (Option.map Value.vTime s?) (Doc.get d "start_date") ∧
    ∀ k, k ≠ "message" → k ≠ "expiration" → k ≠ "start_date" →
      Doc.get (setFields (buildUpdateFields m? e? s?) d) k = Doc.get d k := by
  rw [setFields_build]
  refine ⟨?_, ?_, ?_, ?_⟩
  · rcases m? with _ | m <;> rcases e? with _ | e <;> rcases s? with _ | s <;>
      simp [optSetStr, optSetTime, Doc.get_set, patchVal]
  · rcases m? with _ | m <;> rcases e? with _ | e <;> rcases s? with _ | s <;>
      simp [optSetStr, optSetTime, Doc.get_set, patchVal]
  · rcases m? with _ | m <;> rcases e? with _ | e <;> rcases s? with _ | s <;>
      simp [optSetStr, optSetTime, Doc.get_set, patchVal]
  · intro k hk1 hk2 hk3
    rcases m? with _ | m <;> rcases e? with _ | e <;> rcases s? with _ | s <;>
      simp [optSetStr, optSetTime, Doc.get_set, patchVal, hk1, hk2, hk3]

theorem update_success (ac : AnnouncementsCollection) (tc : TeachersCollection)
    (aid : String) (m? : Option String) (e? s? : Option Int) (u : String) (td d : Doc)
    (hauth : require_auth tc (some u) = Except.ok td)
    (hfound : ac.find_one (Value.vStr aid) = some d)
    (hne : (buildUpdateFields m? e? s?).entries.isEmpty = false) :
    update_announcement ac tc aid m? e? s? (some u) =
      (Except.ok (exposeId (setFields (buildUpdateFields m? e? s?) d)),
       ⟨(updateFirst (idIs (Value.vStr aid))
           (setFields (buildUpdateFields m? e? s?)) ac.docs).1, ac.nextKey⟩) ∧
    AnnouncementsCollection.find_one
      ⟨(updateFirst (idIs (Value.vStr aid))
          (setFields (buildUpdateFields m? e? s?)) ac.docs).1, ac.nextKey⟩
      (Value.vStr aid) = some (setFields (buildUpdateFields m? e? s?) d) := by
  have hfound2 : ac.docs.find? (idIs (Value.vStr aid)) = some d := hfound
  have hpd : idIs (Value.vStr aid) d = true := List.find?_some hfound2
  have hpf : idIs (Value.vStr aid) (setFields (buildUpdateFields m? e? s?) d) = true := by
    unfold idIs at hpd ⊢
    rw [setFields_build_id]
    exact hpd
  obtain ⟨h2, h1⟩ := updateFirst_of_find_some (idIs (Value.vStr aid))
    (setFields (buildUpdateFields m? e? s?)) ac.docs d hfound2
  have hfind := h1 hpf
  refine ⟨?_, hfind⟩
  simp only [update_announcement, hauth, hne, Bool.false_eq_true, if_false,
    AnnouncementsCollection.update_one, h2, AnnouncementsCollection.find_one, hfind]
  rfl

/-- C3: Update is a merge-patch: for an existing announcement, an Update
supplying a subset of the optional fields overwrites exactly the supplied
fields in the stored record and leaves every other field at its prior
value. -/
theorem update_merge_patch (ac : AnnouncementsCollection) (tc : TeachersCollection)
    (aid : String) (m? : Option String) (e? s? : Option Int) (u : String) (td d : Doc)
    (hauth : require_auth tc (some u) = Except.ok td)
    (hfound : ac.find_one (Value.vStr aid) = some d)
    (hsome : m?.isSome = true ∨ e?.isSome = true ∨ s?.isSome = true) :
    ∃ ann c2 d2,
      update_announcement ac tc aid m? e? s? (some u) = (Except.ok ann, c2) ∧
      c2.find_one (Value.vStr aid) = some d2 ∧
      Doc.get d2 "message" = patchVal (Option.map Value.vStr m?) (Doc.get d "message") ∧
      Doc.get d2 "expiration" = patchVal (Option.map Value.vTime e?) (Doc.get d "expiration") ∧
      Doc.get d2 "start_date" = patchVal (Option.map Value.vTime s?) (Doc.get d "start_date") ∧
      ∀ k, k ≠ "message" → k ≠ "expiration" → k ≠ "start_date" →
        Doc.get d2 k = Doc.get d k := by
  have hne := buildUpdateFields_nonempty m? e? s? hsome
  obtain ⟨heq, hfind⟩ := update_success ac tc aid m? e? s? u td d hauth hfound hne
  obtain ⟨hg1, hg2, hg3, hg4⟩ := setFields_build_get m? e? s? d
  exact ⟨_, _, setFields (buildUpdateFields m? e? s?) d, heq, hfind, hg1, hg2, hg3, hg4⟩

/-- C4 (amended): for every id and every caller that passes the
authentication gate, an Update supplying none of the optional fields
fails with NoFieldsToUpdate, before any store operation, leaving the
store unchanged. -/
theorem update_no_fields (ac : AnnouncementsCollection) (tc : TeachersCollection)
    (aid : String) (u : String) (td : Doc)
    (hauth : require_auth tc (some u) = Except.ok td) :
    update_announcement ac tc aid none none none (some u) =
      (Except.error noFieldsToUpdate, ac) := by
  simp [update_announcement, hauth, buildUpdateFields]

/-- The claim C4 as frozen quantifies over every caller: it fails for the
caller ghost, absent from the directory, where an empty Update fails with
InvalidCaller rather than NoFieldsToUpdate. -/
theorem update_no_fields_counterexample :
    update_announcement ac0 tc0 "0" none none none (some "ghost") =
      (Except.error invalidUser, ac0) ∧ invalidUser ≠ noFieldsToUpdate :=
  ⟨rfl, by decide⟩

/-- C6: for every authenticated caller, an Update supplying at least one
optional field on an id with no stored announcement fails with NotFound
and leaves the store unchanged. -/
theorem update_not_found (ac : AnnouncementsCollection) (tc : TeachersCollection)
    (aid : String) (m? : Option String) (e? s? : Option Int) (u : String) (td : Doc)
    (hauth : require_auth tc (some u) = Except.ok td)
    (hmiss : ac.find_one (Value.vStr aid) = none)
    (hsome : m?.isSome = true ∨ e?.isSome = true ∨ s?.isSome = true) :
    update_announcement ac tc aid m? e? s? (some u) =
      (Except.error announcementNotFound, ac) := by
  have hne := buildUpdateFields_nonempty m? e? s? hsome
  have hmiss2 : ac.docs.find? (idIs (Value.vStr aid)) = none := hmiss
  have hup := updateFirst_of_find_none (idIs (Value.vStr aid))
    (setFields (buildUpdateFields m? e? s?)) ac.docs hmiss2
  simp [update_announcement, hauth, hne, AnnouncementsCollection.update_one, hup]

/-- C8: a successful Update returns the full post-update announcement as
re-read from the store after the write, its stored key exposed as the
string field id as in List Active. -/
theorem update_returns_reread (ac : AnnouncementsCollection) (tc : TeachersCollection)
    (aid : String) (m? : Option String) (e? s? : Option Int) (u : String) (td d : Doc)
    (hauth : require_auth tc (some u) = Except.ok td)
    (hfound : ac.find_one (Value.vStr aid) = some d)
    (hsome : m?.isSome = true ∨ e?.isSome = true ∨ s?.isSome = true) :
    ∃ d2 c2,
      update_announcement ac tc aid m? e? s? (some u) = (Except.ok (exposeId d2), c2) ∧
      c2.find_one (Value.vStr aid) = some d2 := by
  have hne := buildUpdateFields_nonempty m? e? s? hsome
  obtain ⟨heq, hfind⟩ := update_success ac tc aid m? e? s? u td d hauth hfound hne
  exact ⟨_, _, heq, hfind⟩

/-! Witnesses for the update claims, at the fixture store. -/

/-- Witness for update_merge_patch: patching only the message of the
stored fixture. -/
theorem update_merge_patch_witness :
    require_auth tc0 (some "t1") = Except.ok td0 ∧
    AnnouncementsCollection.find_one ac0 (Value.vStr "0") = some d0 ∧
    (∃ ann c2 d2,
      update_announcement ac0 tc0 "0" (some "bye") none none (some "t1") =
        (Except.ok ann, c2) ∧
      AnnouncementsCollection.find_one c2 (Value.vStr "0") = some d2 ∧
      Doc.get d2 "message" =
        patchVal (Option.map Value.vStr (some "bye")) (Doc.get d0 "message") ∧
      Doc.get d2 "expiration" =
        patchVal (Option.map Value.vTime none) (Doc.get d0 "expiration") ∧
      Doc.get d2 "start_date" =
        patchVal (Option.map Value.vTime none) (Doc.get d0 "start_date") ∧
      ∀ k, k ≠ "message" → k ≠ "expiration" → k ≠ "start_date" →
        Doc.get d2 k = Doc.get d0 k) :=
  ⟨rfl, rfl,
    update_merge_patch ac0 tc0 "0" (some "bye") none none "t1" td0 d0 rfl rfl (Or.inl rfl)⟩

/-- Witness for update_no_fields: an empty patch by the valid teacher t1. -/
theorem update_no_fields_witness :
    require_auth tc0 (some "t1") = Except.ok td0 ∧
    update_announcement ac0 tc0 "0" none none none (some "t1") =
      (Except.error noFieldsToUpdate, ac0) :=
  ⟨rfl, update_no_fields ac0 tc0 "0" "t1" td0 rfl⟩

/-- Witness for update_not_found: patching an id absent from the fixture
store. -/
theorem update_not_found_witness :
    require_auth tc0 (some "t1") = Except.ok td0 ∧
    AnnouncementsCollection.find_one ac0 (Value.vStr "zzz") = none ∧
    update_announcement ac0 tc0 "zzz" (some "x") none none (some "t1") =
      (Except.error announcementNotFound, ac0) :=
  ⟨rfl, rfl,
    update_not_found ac0 tc0 "zzz" (some "x") none none "t1" td0 rfl rfl (Or.inl rfl)⟩

/-- Witness for update_returns_reread at the fixture store. -/
theorem update_returns_reread_witness :
    require_auth tc0 (some "t1") = Except.ok td0 ∧
    AnnouncementsCollection.find_one ac0 (Value.vStr "0") = some d0 ∧
    (∃ d2 c2,
      update_announcement ac0 tc0 "0" (some "bye2") none none (some "t1") =
        (Except.ok (exposeId d2), c2) ∧
      AnnouncementsCollection.find_one c2 (Value.vStr "0") = some d2) :=
  ⟨rfl, rfl,
    update_returns_reread ac0 tc0 "0" (some "bye2") none none "t1" td0 d0 rfl rfl
      (Or.inl rfl)⟩

/-- A returned announcement representation exposes the identifier as the
string field id and carries no internal storage-key field. -/
def ExposedOk (a : Doc) : Prop :=
  (∃ s, Doc.get a "id" = some (Value.vStr s)) ∧ Doc.get a "_id" = none

theorem exposedOk_exposeId (d : Doc) : ExposedOk (exposeId d) := by
  refine ⟨⟨valueStr ((Doc.get d "_id").getD Value.vNull), ?_⟩, ?_⟩
  · unfold exposeId
    rw [Doc.get_set, if_pos rfl]
  · unfold exposeId
    rw [Doc.get_set, if_neg (by decide), Doc.get_eraseKey, if_pos rfl]

/-- C5: every announcement returned by List Active, Create, or Update
exposes its identifier under the string field id, and never exposes the
internal storage-key field. -/
theorem returned_announcements_expose_id (ac : AnnouncementsCollection)
    (tc : TeachersCollection) (now expn : Int) (msg aid : String)
    (sd : Option Int) (m? : Option String) (e? s? : Option Int)
    (u : Option String) (l : List Doc) (ann : Doc) (c2 : AnnouncementsCollection)
    (ann2 : Doc) (c3 : AnnouncementsCollection) :
    (get_announcements ac now = Except.ok l → ∀ a ∈ l, ExposedOk a) ∧
    (create_announcement ac tc msg expn sd u = (Except.ok ann, c2) → ExposedOk ann) ∧
    (update_announcement ac tc aid m? e? s? u = (Except.ok ann2, c3) → ExposedOk ann2) := by
  refine ⟨?_, ?_, ?_⟩
  · intro hl a ha
    have hl2 : l = (ac.docs.filter (expirationGte now)).map exposeId := by
      simpa [get_announcements, AnnouncementsCollection.findExpirationGte] using hl.symm
    subst hl2
    obtain ⟨d, _, rfl⟩ := List.mem_map.mp ha
    exact exposedOk_exposeId d
  · intro h
    unfold create_announcement at h
    split at h
    · simp at h
    · simp only [Prod.mk.injEq] at h
      obtain ⟨h1, h2⟩ := h
      obtain ⟨rfl⟩ := Except.ok.inj h1
      refine ⟨⟨keyGen ac.nextKey, ?_⟩, ?_⟩
      · rw [Doc.get_set, if_pos rfl]
        rfl
      · rw [Doc.get_set, if_neg (by decide)]
        rfl
  · intro h
    unfold update_announcement at h
    split at h
    · simp at h
    · simp only [] at h
      split at h
      · simp at h
      · split at h
        · simp at h
        · split at h
          · simp at h
          · simp only [Prod.mk.injEq] at h
            obtain ⟨h1, h2⟩ := h
            obtain ⟨rfl⟩ := Except.ok.inj h1
            exact exposedOk_exposeId _

/-- The announcement returned by the witness run of Create. -/
def annC0 : Doc :=
  ⟨[("message", Value.vStr "hi"), ("expiration", Value.vTime 99),
    ("start_date", Value.vNull), ("id", Value.vStr "1")]⟩

/-- The store after the witness run of Create. -/
def acC0 : AnnouncementsCollection :=
  ⟨[d0, ⟨[("message", Value.vStr "hi"), ("expiration", Value.vTime 99),
    ("start_date", Value.vNull), ("_id", Value.vStr "1")]⟩], 2⟩

/-- The stored record after the witness run of Update. -/
def dU0 : Doc :=
  ⟨[("_id", Value.vStr "0"), ("message", Value.vStr "bye"),
    ("expiration", Value.vTime 10), ("start_date", Value.vNull)]⟩

/-- The announcement returned by the witness run of Update. -/
def annU0 : Doc :=
  ⟨[("message", Value.vStr "bye"), ("expiration", Value.vTime 10),
    ("start_date", Value.vNull), ("id", Value.vStr "0")]⟩

/-- Witness for returned_announcements_expose_id on concrete List,
Create and Update runs. -/
theorem returned_announcements_expose_id_witness :
    get_announcements ac0 5 = Except.ok [exposeId d0] ∧
    create_announcement ac0 tc0 "hi" 99 none (some "t1") = (Except.ok annC0, acC0) ∧
    update_announcement ac0 tc0 "0" (some "bye") none none (some "t1") =
      (Except.ok annU0, ⟨[dU0], 1⟩) ∧
    (∀ a ∈ [exposeId d0], ExposedOk a) ∧ ExposedOk annC0 ∧ ExposedOk annU0 := by
  have h := returned_announcements_expose_id ac0 tc0 5 99 "hi" "0" none (some "bye")
    none none (some "t1") [exposeId d0] annC0 acC0 annU0 ⟨[dU0], 1⟩
  exact ⟨rfl, rfl, rfl, h.1 rfl, h.2.1 rfl, h.2.2 rfl⟩

/-- C9: for every authenticated caller and all inputs, with no validation
of the message, the expiration, or their ordering with start_date, Create
succeeds, appends exactly one new record carrying the fresh store key,
and returns the new announcement with the store-assigned id; start_date
is stored and returned as null when absent. -/
theorem create_inserts_and_returns (ac : AnnouncementsCollection)
    (tc : TeachersCollection) (msg : String) (expn : Int) (sd : Option Int)
    (u : String) (td : Doc)
    (hauth : require_auth tc (some u) = Except.ok td) :
    ∃ ann c2 stored,
      create_announcement ac tc msg expn sd (some u) = (Except.ok ann, c2) ∧
      c2.docs = ac.docs ++ [stored] ∧
      c2.nextKey = ac.nextKey + 1 ∧
      Doc.get stored "_id" = some (Value.vStr (keyGen ac.nextKey)) ∧
      Doc.get stored "message" = some (Value.vStr msg) ∧
      Doc.get stored "expiration" = some (Value.vTime expn) ∧
      Doc.get stored "start_date" = some (optTime sd) ∧
      Doc.get ann "id" = some (Value.vStr (keyGen ac.nextKey)) ∧
      Doc.get ann "message" = some (Value.vStr msg) ∧
      Doc.get ann "expiration" = some (Value.vTime expn) ∧
      Doc.get ann "start_date" = some (optTime sd) ∧
      (sd = none → Doc.get ann "start_date" = some Value.vNull) := by
  have heq : create_announcement ac tc msg expn sd (some u) =
      (Except.ok ((⟨[("message", Value.vStr msg), ("expiration", Value.vTime expn),
          ("start_date", optTime sd)]⟩ : Doc).set "id" (Value.vStr (keyGen ac.nextKey))),
       ⟨ac.docs ++ [(⟨[("message", Value.vStr msg), ("expiration", Value.vTime expn),
          ("start_date", optTime sd)]⟩ : Doc).set "_id" (Value.vStr (keyGen ac.nextKey))],
        ac.nextKey + 1⟩) := by
    simp only [create_announcement, hauth, AnnouncementsCollection.insert_one]
  refine ⟨_, _, _, heq, rfl, rfl, ?_, ?_, ?_, ?_, ?_, ?_, ?_, ?_, fun hsd => ?_⟩
  · rw [Doc.get_set, if_pos rfl]
  · rw [Doc.get_set, if_neg (by decide)]
    rfl
  · rw [Doc.get_set, if_neg (by decide)]
    rfl
  · rw [Doc.get_set, if_neg (by decide)]
    rfl
  · rw [Doc.get_set, if_pos rfl]
  · rw [Doc.get_set, if_neg (by decide)]
    rfl
  · rw [Doc.get_set, if_neg (by decide)]
    rfl
  · rw [Doc.get_set, if_neg (by decide)]
    rfl
  · subst hsd
    rw [Doc.get_set, if_neg (by decide)]
    rfl

/-- Witness for create_inserts_and_returns: teacher t1 creating an
announcement with an empty message and a past expiration, exercising the
absence of validation. -/
theorem create_inserts_and_returns_witness :
    require_auth tc0 (some "t1") = Except.ok td0 ∧
    (∃ ann c2 stored,
      create_announcement ac0 tc0 "" (-3) none (some "t1") = (Except.ok ann, c2) ∧
      c2.docs = ac0.docs ++ [stored] ∧
      c2.nextKey = ac0.nextKey + 1 ∧
      Doc.get stored "_id" = some (Value.vStr (keyGen ac0.nextKey)) ∧
      Doc.get stored "message" = some (Value.vStr "") ∧
      Doc.get stored "expiration" = some (Value.vTime (-3)) ∧
      Doc.get stored "start_date" = some (optTime none) ∧
      Doc.get ann "id" = some (Value.vStr (keyGen ac0.nextKey)) ∧
      Doc.get ann "message" = some (Value.vStr "") ∧
      Doc.get ann "expiration" = some (Value.vTime (-3)) ∧
      Doc.get ann "start_date" = some (optTime none) ∧
      (none = (none : Option Int) → Doc.get ann "start_date" = some Value.vNull)) :=
  ⟨rfl, create_inserts_and_returns ac0 tc0 "" (-3) none "t1" td0 rfl⟩

/-- C10: an empty-string caller identifier is treated exactly like an
absent one: the gate gives the same result as with no identifier, namely
Unauthenticated, for every directory (even one containing a record keyed
by the empty string, showing the directory is never consulted), and every
mutating operation with an empty-string caller fails Unauthenticated with
the store unchanged. -/
theorem empty_caller_unauthenticated (ac : AnnouncementsCollection)
    (tc : TeachersCollection) (aid msg : String) (expn : Int) (sd : Option Int)
    (m? : Option String) (e? s? : Option Int) :
    require_auth tc (some "") = require_auth tc none ∧
    require_auth tc (some "") = Except.error authenticationRequired ∧
    create_announcement ac tc msg expn sd (some "") =
      (Except.error authenticationRequired, ac) ∧
    update_announcement ac tc aid m? e? s? (some "") =
      (Except.error authenticationRequired, ac) ∧
    delete_announcement ac tc aid (some "") =
      (Except.error authenticationRequired, ac) := by
  have he := require_auth_empty tc
  refine ⟨by rw [he]; rfl, he, ?_, ?_, ?_⟩ <;>
    simp [create_announcement, update_announcement, delete_announcement, he]

theorem find?_filter_not (p : Doc → Bool) (l : List Doc) :
    (l.filter (fun x => !(p x))).find? p = none := by
  induction l with
  | nil => rfl
  | cons a l ih =>
    cases hpa : p a with
    | true => simp [List.filter_cons, hpa, ih]
    | false => simp [List.filter_cons, hpa, List.find?_cons, ih]

/-- Recognizes a stored key holding a string. -/
def isStrId : Option Value → Bool
  | some (Value.vStr _) => true
  | _ => false

/-- Store well-formedness from the spec: every stored document carries a
string key (keys are assigned at creation and exposed as strings). -/
def StringIds (c : AnnouncementsCollection) : Prop :=
  ∀ d ∈ c.docs, isStrId (Doc.get d "_id") = true

/-- Store well-formedness from the spec: stored keys are unique. -/
def UniqueIds (c : AnnouncementsCollection) : Prop :=
  c.docs.Pairwise (fun a b => Doc.get a "_id" ≠ Doc.get b "_id")

/-- C7: for an authenticated caller, Delete fails with NotFound exactly
when no announcement with the given id exists; when one exists, Delete
removes exactly that record, the id can no longer be found by lookup or
through List Active, and the result is the single boolean success flag. -/
theorem delete_spec (ac : AnnouncementsCollection) (tc : TeachersCollection)
    (aid u : String) (td : Doc) (now : Int)
    (hauth : require_auth tc (some u) = Except.ok td)
    (hsi : StringIds ac) (huniq : UniqueIds ac) :
    (AnnouncementsCollection.find_one ac (Value.vStr aid) = none →
      delete_announcement ac tc aid (some u) = (Except.error announcementNotFound, ac)) ∧
    (∀ d, AnnouncementsCollection.find_one ac (Value.vStr aid) = some d →
      ∃ c2, delete_announcement ac tc aid (some u) = (Except.ok successDoc, c2) ∧
        c2.docs = ac.docs.filter (fun x => !(idIs (Value.vStr aid) x)) ∧
        AnnouncementsCollection.find_one c2 (Value.vStr aid) = none ∧
        (∀ l, get_announcements c2 now = Except.ok l →
          ∀ a ∈ l, Doc.get a "id" ≠ some (Value.vStr aid))) := by
  constructor
  · intro hmiss
    have hmiss2 : ac.docs.find? (idIs (Value.vStr aid)) = none := hmiss
    have hdel := deleteFirst_of_find_none (idIs (Value.vStr aid)) ac.docs hmiss2
    simp [delete_announcement, hauth, AnnouncementsCollection.delete_one, hdel]
  · intro d hfound
    have hfound2 : ac.docs.find? (idIs (Value.vStr aid)) = some d := hfound
    have hpw : ac.docs.Pairwise
        (fun a b => (idIs (Value.vStr aid) a && idIs (Value.vStr aid) b) = false) := by
      refine huniq.imp ?_
      intro a b hne
      cases ha : idIs (Value.vStr aid) a with
      | false => simp [ha]
      | true =>
        cases hb : idIs (Value.vStr aid) b with
        | false => simp [hb]
        | true =>
          exfalso
          have ha2 : Doc.get a "_id" = some (Value.vStr aid) := beq_iff_eq.mp ha
          have hb2 : Doc.get b "_id" = some (Value.vStr aid) := beq_iff_eq.mp hb
          exact hne (ha2.trans hb2.symm)
    have hdel := deleteFirst_of_find_some (idIs (Value.vStr aid)) ac.docs d hfound2 hpw
    refine ⟨⟨ac.docs.filter (fun x => !(idIs (Value.vStr aid) x)), ac.nextKey⟩,
      ?_, rfl, ?_, ?_⟩
    · simp [delete_announcement, hauth, AnnouncementsCollection.delete_one, hdel]
    · exact find?_filter_not (idIs (Value.vStr aid)) ac.docs
    · intro l hl a ha hcontra
      have hl2 : l = ((ac.docs.filter (fun x => !(idIs (Value.vStr aid) x))).filter
          (expirationGte now)).map exposeId := by
        simpa [get_announcements, AnnouncementsCollection.findExpirationGte] using hl.symm
      subst hl2
      obtain ⟨x, hx, rfl⟩ := List.mem_map.mp ha
      have hx2 := List.mem_filter.mp hx
      have hx3 := List.mem_filter.mp hx2.1
      have hsx := hsi x hx3.1
      obtain ⟨s, hs⟩ : ∃ s, Doc.get x "_id" = some (Value.vStr s) := by
        rcases hg : Doc.get x "_id" with _ | v
        · rw [hg] at hsx
          simp [isStrId] at hsx
        · cases v with
          | vStr s => exact ⟨s, rfl⟩
          | vTime t => rw [hg] at hsx; simp [isStrId] at hsx
          | vBool b => rw [hg] at hsx; simp [isStrId] at hsx
          | vNull => rw [hg] at hsx; simp [isStrId] at hsx
      have hid : Doc.get (exposeId x) "id" = some (Value.vStr s) := by
        unfold exposeId
        rw [Doc.get_set, if_pos rfl, hs]
        rfl
      rw [hid] at hcontra
      have hsaid : s = aid := Value.vStr.inj (Option.some.inj hcontra)
      subst hsaid
      have hxtrue : idIs (Value.vStr s) x = true := by
        unfold idIs
        rw [hs]
        simp
      have hxfalse : idIs (Value.vStr s) x = false := by simpa using hx3.2
      rw [hxtrue] at hxfalse
      simp at hxfalse

/-- Witness for delete_spec: deleting a missing id and the stored id at
the fixture store. -/
theorem delete_spec_witness :
    require_auth tc0 (some "t1") = Except.ok td0 ∧ StringIds ac0 ∧ UniqueIds ac0 ∧
    delete_announcement ac0 tc0 "zzz" (some "t1") =
      (Except.error announcementNotFound, ac0) ∧
    (∃ c2, delete_announcement ac0 tc0 "0" (some "t1") = (Except.ok successDoc, c2) ∧
      c2.docs = ac0.docs.filter (fun x => !(idIs (Value.vStr "0") x)) ∧
      AnnouncementsCollection.find_one c2 (Value.vStr "0") = none ∧
      (∀ l, get_announcements c2 5 = Except.ok l →
        ∀ a ∈ l, Doc.get a "id" ≠ some (Value.vStr "0"))) := by
  have hsi : StringIds ac0 := by
    intro d hd
    have hd2 : d ∈ [d0] := hd
    rw [List.mem_singleton] at hd2
    subst hd2
    rfl
  have huq : UniqueIds ac0 := by simp [UniqueIds, ac0]
  have h1 := delete_spec ac0 tc0 "zzz" "t1" td0 5 rfl hsi huq
  have h2 := delete_spec ac0 tc0 "0" "t1" td0 5 rfl hsi huq
  exact ⟨rfl, hsi, huq, h1.1 rfl, h2.2 d0 rfl⟩

end Announcements
